import Mathlib

/-!
# Verification of the `satelles` TLE/CPF parsing and interpolation core

A shallow embedding, in Lean 4, of the text-record parsing pipeline
(`src/satelles/tle.py`, `src/satelles/cpf.py`) and the position interpolation
engine (`src/satelles/interpolation.py`) of the `satelles` library, together
with theorems checking the library's specification against the code.

Modelling conventions:
* Python `str` values are embedded as `List Char`.
* Python `float` values are embedded as `ℚ` (the decoders at issue manipulate
  exact decimal strings; IEEE rounding is not what the checked claims are
  about).  IEEE `nan` results are embedded as `Option ℚ` being `none`.
* Python functions that may raise are embedded with `Except` / sum-like
  result types; functions returning `None` on failure return `Option`.
* The regular-expression grammars of the source are embedded as deterministic
  recursive matchers.  Every pattern used by the source is deterministic
  modulo greediness (each greedy sub-pattern is followed by a pattern whose
  first character it can never consume), so greedy matching without
  backtracking is equivalent to the Python `re` semantics for these grammars;
  character classes are the ASCII ones (the inputs at issue are ASCII).
-/

namespace Satelles

/-! ## Character classes (ASCII, mirroring the classes used by the grammars) -/

/-- Python `str.strip` whitespace / regex `\s`, restricted to ASCII. -/
def isSpacePy (c : Char) : Bool :=
  c = ' ' || c = '\t' || c = '\n' || c = '\x0d' || c = '\x0c' || c = '\x0b'

/-- Regex `\d` (ASCII: code points 48–57). -/
def isDigitA (c : Char) : Bool := 48 ≤ c.toNat && c.toNat ≤ 57

/-- Regex `[A-Z]` (code points 65–90). -/
def isUpperA (c : Char) : Bool := 65 ≤ c.toNat && c.toNat ≤ 90

/-- Regex `[a-z]` (code points 97–122). -/
def isLowerA (c : Char) : Bool := 97 ≤ c.toNat && c.toNat ≤ 122

/-- Regex `[0-9A-Z]` — the TLE satellite-id alphabet. -/
def isUpperAlnum (c : Char) : Bool := isDigitA c || isUpperA c

/-- Regex `[A-Za-z0-9]` — the CPF ephemeris-source alphabet. -/
def isAlnumA (c : Char) : Bool := isDigitA c || isUpperA c || isLowerA c

/-- Python `str.isalpha`, restricted to ASCII. -/
def isAlphaA (c : Char) : Bool := isUpperA c || isLowerA c

/-- Regex `\S` (ASCII complement of `isSpacePy`). -/
def isNonSpace (c : Char) : Bool := !(isSpacePy c)

/-- The numeric value of a decimal digit character. -/
def digitVal (c : Char) : ℕ := c.toNat - '0'.toNat

/-- The value of a base-36 digit: `0`–`9` → 0–9, `A`–`Z`/`a`–`z` → 10–35. -/
def digitVal36 (c : Char) : ℕ :=
  if isDigitA c then digitVal c
  else if isUpperA c then c.toNat - 'A'.toNat + 10
  else c.toNat - 'a'.toNat + 10

/-- Python's per-character `str.upper` (ASCII). -/
def toUpperPy (c : Char) : Char :=
  if isLowerA c then Char.ofNat (c.toNat - 32) else c

/-! ## String helpers -/

/-- The natural number denoted by a list of decimal digits (most significant
first), the value of Python `int(s)` on an all-digit string. -/
def natOfDigits (ds : List Char) : ℕ :=
  ds.foldl (fun acc c => 10 * acc + digitVal c) 0

/-- The natural number denoted by a list of base-36 digits, the value of
Python `int(s, 36)` on a sign-free string. -/
def natOfDigits36 (ds : List Char) : ℕ :=
  ds.foldl (fun acc c => 36 * acc + digitVal36 c) 0

/-- Python `int(s, 10)` on a sign-free token: all characters must be decimal
digits and the token nonempty, otherwise `ValueError` (`none`). -/
def intBase10 (s : List Char) : Option ℕ :=
  if s ≠ [] ∧ s.all isDigitA then some (natOfDigits s) else none

/-- Python `int(s, 36)` on a sign-free token: all characters must be
alphanumeric and the token nonempty, otherwise `ValueError` (`none`). -/
def intBase36 (s : List Char) : Option ℕ :=
  if s ≠ [] ∧ s.all isAlnumA then some (natOfDigits36 s) else none

/-- Python `str.strip`: drop leading and trailing whitespace. -/
def strip (s : List Char) : List Char :=
  ((s.dropWhile isSpacePy).reverse.dropWhile isSpacePy).reverse

/-- Split a string at newline characters (Python `str.splitlines` for inputs
whose only line terminator is `'\n'`). -/
def splitLinesAux (cur : List Char) (acc : List (List Char)) :
    List Char → List (List Char)
  | [] => (cur.reverse :: acc).reverse
  | c :: rest =>
      if c = '\n' then splitLinesAux [] (cur.reverse :: acc) rest
      else splitLinesAux (c :: cur) acc rest

def splitLines (s : List Char) : List (List Char) := splitLinesAux [] [] s

/-! ## Deterministic matcher combinators

Building blocks for the embedded regular expressions.  Each returns the
matched group together with the unconsumed remainder, or `none`. -/

/-- Match exactly `n` characters satisfying `p` (regex `X{n}`). -/
def takeCount (p : Char → Bool) : ℕ → List Char → Option (List Char × List Char)
  | 0, s => some ([], s)
  | _ + 1, [] => none
  | n + 1, c :: s =>
      if p c then (takeCount p n s).map (fun r => (c :: r.1, r.2)) else none

/-- Greedily match as many characters satisfying `p` as possible. -/
def takeStar (p : Char → Bool) : List Char → List Char × List Char
  | [] => ([], [])
  | c :: s =>
      if p c then
        let r := takeStar p s
        (c :: r.1, r.2)
      else ([], c :: s)

/-- Greedily match at least one character satisfying `p` (regex `X+`). -/
def takePlus (p : Char → Bool) (s : List Char) :
    Option (List Char × List Char) :=
  let r := takeStar p s
  if r.1 = [] then none else some r

/-- Greedily match between `lo` and `hi` characters satisfying `p`
(regex `X{lo,hi}`). -/
def takeRange (p : Char → Bool) (lo hi : ℕ) (s : List Char) :
    Option (List Char × List Char) :=
  let pre := (takeStar p s).1.take hi
  if lo ≤ pre.length then some (pre, s.drop pre.length) else none

/-- Match one mandatory whitespace run (regex `\s+`), keeping the remainder. -/
def eatWS (s : List Char) : Option (List Char) :=
  (takePlus isSpacePy s).map Prod.snd

/-- Match a literal character. -/
def lit (c : Char) : List Char → Option (List Char)
  | [] => none
  | d :: s => if d = c then some s else none

/-- Match a literal string. -/
def lits : List Char → List Char → Option (List Char)
  | [], s => some s
  | c :: cs, s => (lit c s).bind (lits cs)

/-- Match an optional sign (regex `[+-]?`), returning the sign characters
consumed (`[]`, `['+']`, or `['-']`). -/
def optSign : List Char → List Char × List Char
  | [] => ([], [])
  | c :: s => if c = '+' || c = '-' then ([c], s) else ([], c :: s)

/-! ## `tle.py`: `parse_scientific_notation` -/

/-- The anchored pattern `^([+-]?)(\d{5})([+-]\d)$` of
`parse_scientific_notation`, returning the three groups
(sign characters, five mantissa digits, exponent sign, exponent digit). -/
def sciMatch (value : List Char) : Option (List Char × List Char × Char × Char) :=
  match takeCount isDigitA 5 (optSign value).2 with
  | none => none
  | some (mant, s2) =>
    match s2 with
    | [es, ed] =>
        if (es = '+' || es = '-') && isDigitA ed then
          some ((optSign value).1, mant, es, ed)
        else none
    | _ => none

/-- The signed exponent denoted by the third group, Python `int("±d")`. -/
def signedExp (es ed : Char) : ℤ :=
  if es = '-' then -(digitVal ed : ℤ) else (digitVal ed : ℤ)

/-- `tle.py` `parse_scientific_notation`: parse `±DDDDD±D` as
`sign × (DDDDD / 1e5) × 10^exponent`.  On any string not matching the
pattern the source returns `0.0`. -/
def parse_scientific (value : List Char) : ℚ :=
  match sciMatch value with
  | none => 0
  | some (sgn, mant, es, ed) =>
      let sign : ℚ := if sgn = ['-'] then -1 else 1
      let mantissa : ℚ := (natOfDigits mant : ℚ) / 100000
      sign * mantissa * (10 : ℚ) ^ (signedExp es ed)

/-! ## `tle.py`: `parse_id_field` -/

/-- `tle.py` `parse_id_field`: if the first character is alphabetic interpret
the token in base 36, otherwise base 10; `None` when conversion fails.
(The source also returns `None` for non-`str` input; only string inputs are
embedded.  `int(s, b)` is embedded on sign-free tokens, the only shape the
TLE grammar can feed it.) -/
def parse_id_field (value : List Char) : Option ℕ :=
  match value with
  | [] => intBase10 []
  | c :: _ => if isAlphaA c then intBase36 value else intBase10 value

/-! ## `tle.py`: `parse_classification_field` -/

/-- The three-way outcome of `parse_classification_field`: Python `None`,
a raised `ValueError`, or a returned string. -/
inductive ClassResult where
  | absent : ClassResult
  | error : ClassResult
  | ok : List Char → ClassResult
  deriving DecidableEq, Repr

/-- `tle.py` `parse_classification_field`: strip and upper-case the input;
wrong length → `None`; length 1 but outside `{U, C, S}` → raised
`ValueError`; otherwise the normalized character is returned. -/
def parse_classification_field (value : List Char) : ClassResult :=
  let v := (strip value).map toUpperPy
  if v.length ≠ 1 then ClassResult.absent
  else if v = ['U'] ∨ v = ['C'] ∨ v = ['S'] then ClassResult.ok v
  else ClassResult.error

/-! ## `tle.py`: numeric field decoders -/

/-- The rational denoted by an (optionally signed) plain decimal literal
`[+-]? \d* (\.\d*)?` with at least one digit — the value Python `float`
returns on every numeric field shape the TLE/CPF grammars produce
(`\d+\.\d+`, `[+-]?\.\d{8}`, `\d{7}`, `\d+`, ...). -/
def decSign (sgn : List Char) : ℚ := if sgn = ['-'] then -1 else 1

def parseDecimal (s : List Char) : Option ℚ :=
  match (takeStar isDigitA (optSign s).2).2 with
  | [] =>
      if (takeStar isDigitA (optSign s).2).1 = [] then none
      else some (decSign (optSign s).1 *
        (natOfDigits (takeStar isDigitA (optSign s).2).1 : ℚ))
  | '.' :: s3 =>
      if (takeStar isDigitA s3).2 ≠ [] then none
      else if (takeStar isDigitA (optSign s).2).1 = [] ∧
          (takeStar isDigitA s3).1 = [] then none
      else some (decSign (optSign s).1 *
        ((natOfDigits (takeStar isDigitA (optSign s).2).1 : ℚ) +
          (natOfDigits (takeStar isDigitA s3).1 : ℚ) /
            (10 : ℚ) ^ (takeStar isDigitA s3).1.length))
  | _ => none

/-- `tle.py` `parse_eccentricity_field`: prepend an implicit `"0."` to the
stripped digits and read the result as a float (`None` on failure).  The
grammar feeds it exactly seven digits; the embedding covers every token
`"0." ++ stripped` accepted by `parseDecimal`. -/
def parse_eccentricity_field (value : List Char) : Option ℚ :=
  parseDecimal ('0' :: '.' :: strip value)

/-- `tle.py` `parse_inclination_field` (plain `float(value)`; likewise
`parse_raan_field`, `parse_argument_of_perigee_field`,
`parse_mean_anomaly_field`, `parse_mean_motion_field`,
`parse_first_derivative_of_mean_motion_field`). -/
def parse_float_field (value : List Char) : Option ℚ := parseDecimal value

/-- `tle.py` `parse_ephemeris_type_field` (plain `int(value)`; likewise
`parse_set_number_field`, `parse_number_of_revolutions_field`). -/
def parse_int_field (value : List Char) : Option ℕ := intBase10 value

/-- `tle.py` `parse_bstar_drag_term_field` /
`parse_second_derivative_of_mean_motion_field`: delegate to
`parse_scientific_notation` (never `None` on string input). -/
def parse_packed_sci_field (value : List Char) : Option ℚ :=
  some (parse_scientific value)

/-! ## `tle.py`: `parse_epoch_field`

`datetime(year, 1, 1, tzinfo=timezone.utc).timestamp()` is the number of Unix
seconds from 1970-01-01T00:00:00Z to January 1 of `year` in the proleptic
Gregorian calendar; `timedelta(days=day - 1)` adds `(day - 1) * 86400`
seconds. -/

/-- Unix timestamp (seconds) of January 1, 00:00:00 UTC of the given year:
`365` days per elapsed year plus Gregorian leap days, rebased so that 1970
maps to `0` (`719162` is the day count from 0001-01-01 to 1970-01-01). -/
def unixTimestampJan1 (year : ℕ) : ℤ :=
  let y : ℤ := (year : ℤ) - 1
  86400 * (365 * y + y / 4 - y / 100 + y / 400 - 719162)

/-- `tle.py` `parse_epoch_field`: the first two characters are the two-digit
year (cutoff at 57: `< 57` → `2000 + yy`, otherwise `1900 + yy`), the rest is
the fractional day of year (day 1 = January 1); returns
`(year, day, julian date)` with
`jd = timestamp(Jan 1 of year + (day - 1) days) / 86400 + 2440587.5`. -/
def parse_epoch_field (value : List Char) : Option (ℕ × ℚ × ℚ) :=
  match intBase10 (value.take 2), parseDecimal (value.drop 2) with
  | some yy, some day =>
      let year := if yy < 57 then 2000 + yy else 1900 + yy
      let ts : ℚ := (unixTimestampJan1 year : ℚ) + (day - 1) * 86400
      some (year, day, ts / 86400 + 2440587.5)
  | _, _ => none

/-! ## `interpolation.py`: data model

`models.py` declares `Position` with coordinates `x`, `y`, `z`; the
interpolation engine additionally reads and writes its time attribute `at`
(spec §3: "**Position**: (x, y, z, at)").  Sample coordinates are exact
rationals; an interpolated coordinate is `Option ℚ`, with `none` standing
for the IEEE `nan` the source produces on a vanishing denominator. -/

structure Position where
  x : ℚ
  y : ℚ
  z : ℚ
  att : ℚ
  deriving DecidableEq, Repr, Inhabited

/-- The result of an interpolation query: a `Position` whose coordinates may
be `nan` (`none`). -/
structure InterpPosition where
  x : Option ℚ
  y : Option ℚ
  z : Option ℚ
  att : ℚ
  deriving DecidableEq, Repr, Inhabited

/-- `sorted(positions, key=lambda p: p.att)` of the base-class constructor. -/
def sortByAt (ps : List Position) : List Position :=
  ps.insertionSort (fun p q => p.att ≤ q.att)

/-! ## `interpolation.py`: `BarycentricLagrange3DPositionInterpolator` -/

/-- One barycentric weight: `1 / Π_{j ≠ i} (t_i − t_j)` over list indices
(`_prepare_basis_weights`).  In the source a duplicate sample time makes the
product `0.0` and the division raise `ZeroDivisionError`; the construction
wrapper below surfaces that case as an error. -/
def baryProduct (ps : List Position) (i : ℕ) : ℚ :=
  (List.range ps.length).foldl
    (fun acc j =>
      if j = i then acc else acc * ((ps.getD i default).att - (ps.getD j default).att))
    1

def baryWeights (ps : List Position) : List ℚ :=
  (List.range ps.length).map (fun i => 1 / baryProduct ps i)

/-- The interpolator state built by `__init__`: positions sorted by time plus
one weight per sample.  `Except.error ()` models the `ValueError` for fewer
than two samples and the `ZeroDivisionError` a duplicate sample time causes
during weight precomputation. -/
def mkLagrange (ps : List Position) : Except Unit (List Position × List ℚ) :=
  if ps.length < 2 then Except.error ()
  else
    let s := sortByAt ps
    if (List.range s.length).all (fun i => baryProduct s i ≠ 0) then
      Except.ok (s, baryWeights s)
    else Except.error ()

/-- The accumulation loop of `get_interpolated_position`: walk the
`zip(positions, weights)` pairs; on an exact time match return that sample's
coordinates immediately, otherwise accumulate `factor·x`, `factor·y`,
`factor·z` and the denominator `Σ factor` and finish with the guarded
divisions (`nan`, i.e. `none`, when the denominator is zero). -/
def lagrangeLoop (t : ℚ) : List (Position × ℚ) → ℚ → ℚ → ℚ → ℚ → InterpPosition
  | [], x, y, z, den =>
      ⟨if den ≠ 0 then some (x / den) else none,
       if den ≠ 0 then some (y / den) else none,
       if den ≠ 0 then some (z / den) else none, t⟩
  | (p, w) :: rest, x, y, z, den =>
      if t = p.att then ⟨some p.x, some p.y, some p.z, p.att⟩
      else
        let factor := w / (t - p.att)
        lagrangeLoop t rest (x + factor * p.x) (y + factor * p.y)
          (z + factor * p.z) (den + factor)

/-- `BarycentricLagrange3DPositionInterpolator.get_interpolated_position` on a
constructed state. -/
def lagrangeQuery (st : List Position × List ℚ) (t : ℚ) : InterpPosition :=
  lagrangeLoop t (st.1.zip st.2) 0 0 0 0

/-- Construction followed by a query. -/
def lagrange_get (ps : List Position) (t : ℚ) : Except Unit InterpPosition :=
  (mkLagrange ps).map (fun st => lagrangeQuery st t)

/-! ## The Hermite interpolator (modelled from the spec) -/

/-- Modelled from the spec: the tangent (derivative) estimate at sample `i`
of the sorted sample list — one-sided secant slope at the two ends, central
finite difference through the neighboring samples in the interior
(spec §4.4, "estimate tangent (derivative) at each bracket endpoint from
neighboring samples (finite-difference or equivalent)"). -/
def hermiteTangent (s : List Position) (proj : Position → ℚ) (i : ℕ) : ℚ :=
  let p := fun j => s.getD j default
  if i = 0 then
    (proj (p 1) - proj (p 0)) / ((p 1).att - (p 0).att)
  else if i = s.length - 1 then
    (proj (p i) - proj (p (i - 1))) / ((p i).att - (p (i - 1)).att)
  else
    (proj (p (i + 1)) - proj (p (i - 1))) / ((p (i + 1)).att - (p (i - 1)).att)

/-- Modelled from the spec: index of the bracketing pair of consecutive
sorted samples for an in-range query time (`t_i ≤ t ≤ t_{i+1}`). -/
def findSegment (s : List Position) (t : ℚ) : ℕ :=
  let hit := (List.range (s.length - 1)).filter fun i =>
    decide ((s.getD i default).att ≤ t) && decide (t ≤ (s.getD (i + 1) default).att)
  hit.headD 0

/-- Modelled from the spec: the standard cubic Hermite basis blend on segment
`i` for one axis (spec §4.4, "evaluate the standard cubic Hermite basis blend
between the two endpoints and their tangents, per axis independently"). -/
def hermiteEvalAxis (s : List Position) (proj : Position → ℚ) (t : ℚ) (i : ℕ) : ℚ :=
  let p0 := s.getD i default
  let p1 := s.getD (i + 1) default
  let h := p1.att - p0.att
  let u := (t - p0.att) / h
  let m0 := hermiteTangent s proj i
  let m1 := hermiteTangent s proj (i + 1)
  (2 * u ^ 3 - 3 * u ^ 2 + 1) * proj p0 + (u ^ 3 - 2 * u ^ 2 + u) * h * m0 +
    (-2 * u ^ 3 + 3 * u ^ 2) * proj p1 + (u ^ 3 - u ^ 2) * h * m1

/-- Modelled from the spec: the `Hermite3DPositionInterpolator` query on the
sorted sample list.  The class itself is absent from the available source
(only its tests and the abstract base class exist); per spec §4.4/§7 it
"operates strictly within `[min time, max time]` of the samples; any query
time outside that closed interval is a hard error", and in range it evaluates
the piecewise cubic Hermite blend on the bracketing segment. -/
def hermiteQuery (s : List Position) (t : ℚ) : Except Unit Position :=
  match s with
  | [] => Except.error ()
  | p0 :: rest =>
      if t < p0.att ∨ ((p0 :: rest).getLast (by simp)).att < t then Except.error ()
      else
        let i := findSegment (p0 :: rest) t
        Except.ok
          ⟨hermiteEvalAxis (p0 :: rest) Position.x t i,
           hermiteEvalAxis (p0 :: rest) Position.y t i,
           hermiteEvalAxis (p0 :: rest) Position.z t i, t⟩

/-- Modelled from the spec: the Hermite interpolator constructor — the shared
base-class constructor of the source (`ValueError` below two samples, then
sort by time). -/
def mkHermite (ps : List Position) : Except Unit (List Position) :=
  if ps.length < 2 then Except.error () else Except.ok (sortByAt ps)

/-- Hermite construction followed by a query. -/
def hermite_get (ps : List Position) (t : ℚ) : Except Unit Position :=
  (mkHermite ps).bind (fun s => hermiteQuery s t)

/-! ## `tle.py`: the line grammars -/

/-- Convenience coercion from string literals used in concrete statements. -/
def str (s : String) : List Char := s.data

/-- Match a mandatory sign character (regex `[+-]`). -/
def takeSign : List Char → Option (Char × List Char)
  | [] => none
  | c :: s => if c = '+' || c = '-' then some (c, s) else none

/-- The named groups of `line1_regex`. -/
structure Line1Raw where
  id : List Char
  classification : List Char
  designator : List Char
  year : List Char
  day : List Char
  first_derivative_of_mean_motion : List Char
  second_derivative_of_mean_motion : List Char
  drag : List Char
  ephemeris : List Char
  set : List Char
  deriving DecidableEq, Repr

/-- The packed scientific-notation field of line 1 (regex `[+-]?\d{5}[+-]\d`),
returning the matched group and the remainder. -/
def packedSciToken (s : List Char) : Option (List Char × List Char) :=
  match optSign s with
  | (sg, s) =>
    match takeCount isDigitA 5 s with
    | none => none
    | some (ds, s) =>
      match takeSign s with
      | none => none
      | some (es, s) =>
        match takeCount isDigitA 1 s with
        | none => none
        | some (ed, s) => some (sg ++ ds ++ es :: ed, s)

/-- The epoch field of line 1 (regex `(\d{2})(\d{3}\.\d{8})`), returning the
year group, the day group and the remainder. -/
def epochToken (s : List Char) : Option (List Char × List Char × List Char) :=
  match takeCount isDigitA 2 s with
  | none => none
  | some (yr, s) =>
    match takeCount isDigitA 3 s with
    | none => none
    | some (dayi, s) =>
      match lit '.' s with
      | none => none
      | some s =>
        match takeCount isDigitA 8 s with
        | none => none
        | some (dayf, s) => some (yr, dayi ++ '.' :: dayf, s)

/-- The first-derivative field of line 1 (regex `[+-]?\.\d{8}`). -/
def leadingDotToken (s : List Char) : Option (List Char × List Char) :=
  match optSign s with
  | (sg, s) =>
    match lit '.' s with
    | none => none
    | some s =>
      match takeCount isDigitA 8 s with
      | none => none
      | some (ds, s) => some (sg ++ '.' :: ds, s)

/-- The designator field of line 1 (regex `\d{2}\d{3}[A-Z]{1,3}`). -/
def designatorToken (s : List Char) : Option (List Char × List Char) :=
  match takeCount isDigitA 2 s with
  | none => none
  | some (dy, s) =>
    match takeCount isDigitA 3 s with
    | none => none
    | some (dn, s) =>
      match takeRange isUpperA 1 3 s with
      | none => none
      | some (dl, s) => some (dy ++ dn ++ dl, s)

/-- `tle.py` `line1_regex`:
`^1\s+([0-9A-Z]{5})([A-Z])\s+(\d{2}\d{3}[A-Z]{1,3})\s+(\d{2})(\d{3}\.\d{8})\s+([+-]?\.\d{8})\s+([+-]?\d{5}[+-]\d)\s+([+-]?\d{5}[+-]\d)\s+(\d)\s+(\d+)$`. -/
def line1_match (line : List Char) : Option Line1Raw :=
  match (lit '1' line).bind eatWS with
  | none => none
  | some s =>
  match takeCount isUpperAlnum 5 s with
  | none => none
  | some (idg, s) =>
  match takeCount isUpperA 1 s with
  | none => none
  | some (cls, s) =>
  match (eatWS s).bind designatorToken with
  | none => none
  | some (desig, s) =>
  match (eatWS s).bind epochToken with
  | none => none
  | some (yr, day, s) =>
  match (eatWS s).bind leadingDotToken with
  | none => none
  | some (fdmm, s) =>
  match (eatWS s).bind packedSciToken with
  | none => none
  | some (sdmm, s) =>
  match (eatWS s).bind packedSciToken with
  | none => none
  | some (drag, s) =>
  match (eatWS s).bind (takeCount isDigitA 1) with
  | none => none
  | some (eph, s) =>
  match (eatWS s).bind (takePlus isDigitA) with
  | none => none
  | some (st, s) =>
  if s = [] then
    some ⟨idg, cls, desig, yr, day, fdmm, sdmm, drag, eph, st⟩
  else none

/-- The named groups of `line2_regex`. -/
structure Line2Raw where
  id : List Char
  inclination : List Char
  raan : List Char
  eccentricity : List Char
  argument_of_perigee : List Char
  mean_anomaly : List Char
  mean_motion : List Char
  number_of_revolutions : List Char
  deriving DecidableEq, Repr

/-- A free-form decimal token (regex `\d+\.\d+`). -/
def decimalToken (s : List Char) : Option (List Char × List Char) :=
  match takePlus isDigitA s with
  | none => none
  | some (ip, s) =>
    match lit '.' s with
    | none => none
    | some s =>
      match takePlus isDigitA s with
      | none => none
      | some (fp, s) => some (ip ++ '.' :: fp, s)

/-- `tle.py` `line2_regex`:
`^2\s+([0-9A-Z]{5})\s+(\d+\.\d+)\s+(\d+\.\d+)\s+(\d{7})\s+(\d+\.\d+)\s+(\d+\.\d+)\s+(\d+\.\d+)\s+(\d+)$`. -/
def line2_match (line : List Char) : Option Line2Raw :=
  match (lit '2' line).bind eatWS with
  | none => none
  | some s =>
  match takeCount isUpperAlnum 5 s with
  | none => none
  | some (idg, s) =>
  match (eatWS s).bind decimalToken with
  | none => none
  | some (incl, s) =>
  match (eatWS s).bind decimalToken with
  | none => none
  | some (raan, s) =>
  match (eatWS s).bind (takeCount isDigitA 7) with
  | none => none
  | some (ecc, s) =>
  match (eatWS s).bind decimalToken with
  | none => none
  | some (argp, s) =>
  match (eatWS s).bind decimalToken with
  | none => none
  | some (ma, s) =>
  match (eatWS s).bind decimalToken with
  | none => none
  | some (mm, s) =>
  match (eatWS s).bind (takePlus isDigitA) with
  | none => none
  | some (rev, s) =>
  if s = [] then some ⟨idg, incl, raan, ecc, argp, ma, mm, rev⟩ else none

/-! ## The `Satellite` record (modelled from the spec) -/

/-- Modelled from the spec: the `Satellite` element-set record assembled by
`parse_tle`.  Its class body is absent from the available source
(`satellite.py` only declares the `ID` base model); the fields are the ones
`parse_tle` passes to it, spec §3 "ElementSet". -/
structure Satellite where
  id : ℕ
  name : List Char
  classification : List Char
  designator : List Char
  year : ℕ
  day : ℚ
  jd : ℚ
  ephemeris : ℕ
  set : ℕ
  drag : ℚ
  raan : ℚ
  inclination : ℚ
  eccentricity : ℚ
  argument_of_perigee : ℚ
  mean_anomaly : ℚ
  mean_motion : ℚ
  first_derivative_of_mean_motion : ℚ
  second_derivative_of_mean_motion : ℚ
  number_of_revolutions : ℕ
  deriving DecidableEq, Repr

/-- Modelled from the spec: validated construction of a `Satellite`.  The
`ID` base model present in the source (`satellite.py`) validates
`id ≥ 0`, `1900 ≤ year ≤ 2100`, `1 ≤ day ≤ 367`, `set ≥ 0` and
`classification ∈ {U, C, S}`; a validation failure is the exception
`parse_tle` catches and converts to `None` (`id ≥ 0` and `set ≥ 0` hold by
the `ℕ` typing). -/
def mkSatellite (s : Satellite) : Option Satellite :=
  if 1900 ≤ s.year ∧ s.year ≤ 2100 ∧ 1 ≤ s.day ∧ s.day ≤ 367 ∧
      (s.classification = str "U" ∨ s.classification = str "C" ∨
        s.classification = str "S") then
    some s
  else none

instance {ε α : Type} [DecidableEq ε] [DecidableEq α] :
    DecidableEq (Except ε α) := fun x y =>
  match x, y with
  | Except.error a, Except.error b =>
      if h : a = b then Decidable.isTrue (by rw [h])
      else Decidable.isFalse (by intro hh; cases hh; exact h rfl)
  | Except.ok a, Except.ok b =>
      if h : a = b then Decidable.isTrue (by rw [h])
      else Decidable.isFalse (by intro hh; cases hh; exact h rfl)
  | Except.error _, Except.ok _ => Decidable.isFalse (by intro hh; cases hh)
  | Except.ok _, Except.error _ => Decidable.isFalse (by intro hh; cases hh)

/-! ## `tle.py`: `parse_tle` -/

/-- The orbital-field decoding tail of `parse_tle`, once the id and the
classification have been decoded: each remaining decoder returning `None`
rejects the record; the assembled fields go to the validated `Satellite`
constructor. -/
def decodeOrbit (id : ℕ) (name cls : List Char) (g1 : Line1Raw)
    (g2 : Line2Raw) : Option Satellite :=
  let designator := strip g1.designator
  match parse_epoch_field (g1.year ++ g1.day) with
  | none => none
  | some (year, day, jd) =>
  match parse_float_field g1.first_derivative_of_mean_motion with
  | none => none
  | some fdmm =>
  match parse_packed_sci_field g1.second_derivative_of_mean_motion with
  | none => none
  | some sdmm =>
  match parse_packed_sci_field g1.drag with
  | none => none
  | some drag =>
  match parse_int_field g1.ephemeris with
  | none => none
  | some ephemeris =>
  match parse_int_field g1.set with
  | none => none
  | some st =>
  match parse_float_field g2.inclination with
  | none => none
  | some inclination =>
  match parse_float_field g2.raan with
  | none => none
  | some raan =>
  match parse_eccentricity_field g2.eccentricity with
  | none => none
  | some eccentricity =>
  match parse_float_field g2.argument_of_perigee with
  | none => none
  | some argp =>
  match parse_float_field g2.mean_anomaly with
  | none => none
  | some ma =>
  match parse_float_field g2.mean_motion with
  | none => none
  | some mm =>
  match parse_int_field g2.number_of_revolutions with
  | none => none
  | some revs =>
  mkSatellite
    ⟨id, name, cls, designator, year, day, jd, ephemeris, st,
     drag, raan, inclination, eccentricity, argp, ma, mm, fdmm, sdmm, revs⟩

/-- The two-line core of `parse_tle` once the name line has been split off. -/
def parse_tle_lines (name l1 l2 : List Char) : Except Unit (Option Satellite) :=
  match line1_match l1, line2_match l2 with
  | some g1, some g2 =>
      match parse_id_field g1.id with
      | none => Except.ok none
      | some id =>
          match parse_classification_field g1.classification with
          | ClassResult.absent => Except.ok none
          | ClassResult.error => Except.error ()
          | ClassResult.ok cls => Except.ok (decodeOrbit id name cls g1 g2)
  | _, _ => Except.ok none

/-- `tle.py` `parse_tle`: strip and drop blank lines, take the 2-line or
3-line form (3-line input supplies the display name, 2-line input an empty
name), match both line grammars, decode every field (any decoder returning
`None` rejects the record), assemble the `Satellite`.  `Except.error ()` is
the uncaught `ValueError` that `parse_classification_field` raises on a
plausible-length invalid classification; `Except.ok none` is the absent
result. -/
def parse_tle (tle : List Char) : Except Unit (Option Satellite) :=
  match ((splitLines tle).map strip).filter (fun l => l ≠ []) with
  | [] => Except.ok none
  | [_] => Except.ok none
  | [l1, l2] => parse_tle_lines [] l1 l2
  | l0 :: l1 :: l2 :: _ => parse_tle_lines l0 l1 l2

/-! ## `cpf.py`: the H1 header grammar -/

/-- The named groups of `h1_regex`. -/
structure H1Raw where
  version : List Char
  ephemeris_source : List Char
  year : List Char
  month : List Char
  day : List Char
  hour : List Char
  ephemeris_sequence_number : List Char
  sub_daily_sequence_number : List Char
  target_name : List Char
  notes : Option (List Char)
  deriving DecidableEq, Repr

/-- `cpf.py` `h1_regex`: literal `H1`, literal `CPF`, 1-digit version,
3-char alphanumeric source, 4-digit year, 1–2-digit month/day/hour,
1–3-digit sequence number, 1–2-digit sub-daily sequence number, a 1–10-char
non-space target name, and an optional 1–10-char non-space notes field,
anchored at both ends. -/
def h1_match (line : List Char) : Option H1Raw :=
  match (lits (str "H1") line).bind eatWS with
  | none => none
  | some s =>
  match (lits (str "CPF") s).bind eatWS with
  | none => none
  | some s =>
  match takeCount isDigitA 1 s with
  | none => none
  | some (version, s) =>
  match (eatWS s).bind (takeCount isAlnumA 3) with
  | none => none
  | some (src, s) =>
  match (eatWS s).bind (takeCount isDigitA 4) with
  | none => none
  | some (year, s) =>
  match (eatWS s).bind (takeRange isDigitA 1 2) with
  | none => none
  | some (month, s) =>
  match (eatWS s).bind (takeRange isDigitA 1 2) with
  | none => none
  | some (day, s) =>
  match (eatWS s).bind (takeRange isDigitA 1 2) with
  | none => none
  | some (hour, s) =>
  match (eatWS s).bind (takeRange isDigitA 1 3) with
  | none => none
  | some (seq, s) =>
  match (eatWS s).bind (takeRange isDigitA 1 2) with
  | none => none
  | some (sub, s) =>
  match (eatWS s).bind (takeRange isNonSpace 1 10) with
  | none => none
  | some (target, s) =>
  match s with
  | [] => some ⟨version, src, year, month, day, hour, seq, sub, target, none⟩
  | _ =>
    match (eatWS s).bind (takeRange isNonSpace 1 10) with
    | none => none
    | some (notes, s) =>
      if s = [] then
        some ⟨version, src, year, month, day, hour, seq, sub, target,
          some notes⟩
      else none

/-! ## Supporting lemmas: character classes -/

lemma toNat_bounds_of_isDigitA {c : Char} (h : isDigitA c = true) :
    48 ≤ c.toNat ∧ c.toNat ≤ 57 := by
  unfold isDigitA at h
  simp only [Bool.and_eq_true, decide_eq_true_eq] at h
  exact h

lemma digitVal_le_nine {c : Char} (h : isDigitA c = true) : digitVal c ≤ 9 := by
  have := toNat_bounds_of_isDigitA h
  have h0 : Char.toNat '0' = 48 := rfl
  unfold digitVal
  rw [h0]
  omega

lemma isSpacePy_toNat {c : Char} (h : isSpacePy c = true) : c.toNat ≤ 32 := by
  unfold isSpacePy at h
  simp only [Bool.or_eq_true, decide_eq_true_eq] at h
  rcases h with ((((h | h) | h) | h) | h) | h <;> subst h <;> decide

lemma not_space_of_digit {c : Char} (h : isDigitA c = true) :
    isSpacePy c = false := by
  rcases Bool.eq_false_or_eq_true (isSpacePy c) with h' | h'
  · have := isSpacePy_toNat h'
    have := (toNat_bounds_of_isDigitA h).1
    omega
  · exact h'

lemma not_space_of_upperAlnum {c : Char} (h : isUpperAlnum c = true) :
    isSpacePy c = false := by
  rcases Bool.eq_false_or_eq_true (isSpacePy c) with h' | h'
  · have h32 := isSpacePy_toNat h'
    unfold isUpperAlnum isDigitA isUpperA at h
    simp only [Bool.or_eq_true, Bool.and_eq_true, decide_eq_true_eq] at h
    omega
  · exact h'

lemma digit_not_sign {c : Char} (h : isDigitA c = true) :
    (decide (c = '+') || decide (c = '-')) = false := by
  have := toNat_bounds_of_isDigitA h
  rcases Bool.eq_false_or_eq_true (decide (c = '+') || decide (c = '-')) with
    h' | h'
  · simp only [Bool.or_eq_true, decide_eq_true_eq] at h'
    rcases h' with h' | h' <;> subst h' <;> revert this <;> decide
  · exact h'

lemma not_alpha_of_digit {c : Char} (h : isDigitA c = true) :
    isAlphaA c = false := by
  have := toNat_bounds_of_isDigitA h
  rcases Bool.eq_false_or_eq_true (isAlphaA c) with h' | h'
  · unfold isAlphaA isUpperA isLowerA at h'
    simp only [Bool.or_eq_true, Bool.and_eq_true, decide_eq_true_eq] at h'
    omega
  · exact h'

lemma not_digit_of_alpha {c : Char} (h : isAlphaA c = true) :
    isDigitA c = false := by
  unfold isAlphaA isUpperA isLowerA at h
  simp only [Bool.or_eq_true, Bool.and_eq_true, decide_eq_true_eq] at h
  rcases Bool.eq_false_or_eq_true (isDigitA c) with h' | h'
  · have := toNat_bounds_of_isDigitA h'
    omega
  · exact h'

/-! ## Supporting lemmas: matcher combinators -/

lemma takeCount_exact (p : Char → Bool) :
    ∀ (ds rest : List Char), ds.all p = true →
      takeCount p ds.length (ds ++ rest) = some (ds, rest) := by
  intro ds
  induction ds with
  | nil => intro rest _; rfl
  | cons c ds ih =>
      intro rest h
      simp only [List.all_cons, Bool.and_eq_true] at h
      simp only [List.length_cons, List.cons_append, List.append_eq, takeCount,
        h.1, if_true, ih rest h.2, Option.map_some']

lemma takeStar_all (p : Char → Bool) :
    ∀ (s : List Char), s.all p = true → takeStar p s = (s, []) := by
  intro s
  induction s with
  | nil => intro _; rfl
  | cons c s ih =>
      intro h
      simp only [List.all_cons, Bool.and_eq_true] at h
      simp only [takeStar, h.1, if_true, ih h.2]

lemma takeStar_stop (p : Char → Bool) {c : Char} (s : List Char)
    (hc : p c = false) : takeStar p (c :: s) = ([], c :: s) := by
  simp only [takeStar, hc, Bool.false_eq_true, if_false]

lemma dropWhile_eq_self_of_all (p : Char → Bool) {s : List Char}
    (h : ∀ c ∈ s, p c = false) : s.dropWhile p = s := by
  cases s with
  | nil => rfl
  | cons c s =>
      simp only [List.dropWhile, h c (List.mem_cons_self c s)]

lemma strip_eq_self {s : List Char} (h : ∀ c ∈ s, isSpacePy c = false) :
    strip s = s := by
  unfold strip
  rw [dropWhile_eq_self_of_all _ h, dropWhile_eq_self_of_all, List.reverse_reverse]
  intro c hc
  exact h c (by simpa using hc)

lemma natOfDigits_acc_lt :
    ∀ (ds : List Char), ds.all isDigitA = true →
      ∀ acc : ℕ, ds.foldl (fun a c => 10 * a + digitVal c) acc <
        (acc + 1) * 10 ^ ds.length := by
  intro ds
  induction ds with
  | nil => intro _ acc; simp only [List.foldl_nil, List.length_nil, pow_zero,
      mul_one]; exact Nat.lt_succ_self acc
  | cons c ds ih =>
      intro h acc
      simp only [List.all_cons, Bool.and_eq_true] at h
      have hd := digitVal_le_nine h.1
      have := ih h.2 (10 * acc + digitVal c)
      calc (c :: ds).foldl (fun a c => 10 * a + digitVal c) acc
          = ds.foldl (fun a c => 10 * a + digitVal c) (10 * acc + digitVal c) := rfl
        _ < (10 * acc + digitVal c + 1) * 10 ^ ds.length := this
        _ ≤ (acc + 1) * 10 ^ (c :: ds).length := by
            simp only [List.length_cons, pow_succ]
            nlinarith [pow_pos (by norm_num : (0:ℕ) < 10) ds.length]

lemma natOfDigits_lt {ds : List Char} (h : ds.all isDigitA = true) :
    natOfDigits ds < 10 ^ ds.length := by
  have := natOfDigits_acc_lt ds h 0
  simpa [natOfDigits] using this

/-! ## Supporting lemmas: sign and star combinators -/

lemma optSign_not_sign {c : Char} (s : List Char)
    (h : (decide (c = '+') || decide (c = '-')) = false) :
    optSign (c :: s) = ([], c :: s) := by
  simp only [optSign, h]
  simp

lemma optSign_plus (s : List Char) : optSign ('+' :: s) = (['+'], s) := by
  unfold optSign
  simp

lemma optSign_minus (s : List Char) : optSign ('-' :: s) = (['-'], s) := by
  unfold optSign
  simp

lemma takeStar_append (p : Char → Bool) :
    ∀ (a b : List Char), a.all p = true →
      (∀ c cs, b = c :: cs → p c = false) →
      takeStar p (a ++ b) = (a, b) := by
  intro a
  induction a with
  | nil =>
      intro b _ hb
      cases b with
      | nil => rfl
      | cons c cs => exact takeStar_stop p cs (hb c cs rfl)
  | cons a1 rest ih =>
      intro b h hb
      simp only [List.all_cons, Bool.and_eq_true] at h
      simp only [List.cons_append, List.append_eq, takeStar, h.1, if_true,
        ih b h.2 hb]

/-! ## Claim C3: the scientific-notation decoder -/

lemma sciMatch_build (sgn ds : List Char) (es ed : Char)
    (hs : sgn = [] ∨ sgn = ['+'] ∨ sgn = ['-'])
    (hd : ds.length = 5) (hall : ds.all isDigitA = true)
    (he : es = '+' ∨ es = '-') (hed : isDigitA ed = true) :
    sciMatch (sgn ++ ds ++ [es, ed]) = some (sgn, ds, es, ed) := by
  obtain ⟨c, ds', rfl⟩ : ∃ c ds', ds = c :: ds' := by
    cases ds with
    | nil => simp at hd
    | cons c ds' => exact ⟨c, ds', rfl⟩
  have hc : isDigitA c = true := by
    simp only [List.all_cons, Bool.and_eq_true] at hall
    exact hall.1
  have ho : optSign (sgn ++ (c :: ds') ++ [es, ed]) =
      (sgn, (c :: ds') ++ [es, ed]) := by
    rcases hs with hs | hs | hs <;> subst hs
    · rw [List.nil_append, List.cons_append]
      exact optSign_not_sign _ (digit_not_sign hc)
    · rw [List.cons_append, List.nil_append]
      exact optSign_plus _
    · rw [List.cons_append, List.nil_append]
      exact optSign_minus _
  have htc : takeCount isDigitA 5 ((c :: ds') ++ [es, ed]) =
      some (c :: ds', [es, ed]) := by
    rw [← hd]
    exact takeCount_exact isDigitA (c :: ds') [es, ed] hall
  have hcond : ((decide (es = '+') || decide (es = '-')) && isDigitA ed)
      = true := by
    rcases he with he | he <;> subst he <;> simp [hed]
  unfold sciMatch
  rw [ho]
  simp only []
  rw [htc]
  simp [hcond]

/-- C3 (amended): `parse_scientific_notation` maps every string of the exact
shape `[sign]DDDDD[sign]D` to `sign × (DDDDD / 100000) × 10 ^ exponent`
(in particular `"+12345-3"` decodes to `0.12345e-3` and `"00000-0"` to
`0.0`), and on every string NOT of that shape it returns `0.0` — a value
indistinguishable from the legitimate decode of `"00000-0"` — rather than a
distinguishable decode-failure signal. -/
theorem claim_C3 (sgn ds : List Char) (es ed : Char)
    (hs : sgn = [] ∨ sgn = ['+'] ∨ sgn = ['-'])
    (hd : ds.length = 5) (hall : ds.all isDigitA = true)
    (he : es = '+' ∨ es = '-') (hed : isDigitA ed = true) :
    parse_scientific (sgn ++ ds ++ [es, ed]) =
      (if sgn = ['-'] then -1 else 1) * ((natOfDigits ds : ℚ) / 100000) *
        (10 : ℚ) ^ (signedExp es ed) ∧
    (∀ v : List Char, sciMatch v = none → parse_scientific v = 0) ∧
    parse_scientific (str "+12345-3") = 12345 / 100000000 ∧
    parse_scientific (str "00000-0") = 0 := by
  refine ⟨?_, ?_, ?_, ?_⟩
  · unfold parse_scientific
    rw [sciMatch_build sgn ds es ed hs hd hall he hed]
  · intro v hv
    unfold parse_scientific
    rw [hv]
  · have hb : sciMatch (str "+12345-3") =
        some (['+'], str "12345", '-', '3') := by decide
    have h1 : natOfDigits (str "12345") = 12345 := by decide
    have h2 : signedExp '-' '3' = -3 := by decide
    simp +decide only [parse_scientific, hb, h1, h2]
    norm_num
  · have hb : sciMatch (str "00000-0") =
        some ([], str "00000", '-', '0') := by decide
    have h1 : natOfDigits (str "00000") = 0 := by decide
    simp +decide only [parse_scientific, hb, h1]
    norm_num

/-- C3 counterexample to the claim as stated: the input `"no-shape"` does not
match the scientific-notation pattern, yet the decoder returns `0.0`, the very
value legitimately decoded from `"00000-0"` — there is no decode-failure
signal distinguishable from a legitimate value. -/
theorem claim_C3_counterexample :
    sciMatch (str "no-shape") = none ∧
    parse_scientific (str "no-shape") =
      parse_scientific (str "00000-0") := by
  have hn : sciMatch (str "no-shape") = none := by decide
  have hb : sciMatch (str "00000-0") =
      some ([], str "00000", '-', '0') := by decide
  refine ⟨hn, ?_⟩
  have h1 : natOfDigits (str "00000") = 0 := by decide
  simp +decide only [parse_scientific, hn, hb, h1]
  norm_num

/-- Witness: `claim_C3` applied to the concrete conforming input
`"-12345+2"`. -/
theorem claim_C3_witness :
    parse_scientific (str "-12345+2") =
      (if (['-'] : List Char) = ['-'] then -1 else 1) *
        ((natOfDigits (str "12345") : ℚ) / 100000) *
        (10 : ℚ) ^ (signedExp '+' '2') :=
  (claim_C3 ['-'] (str "12345") '+' '2' (Or.inr (Or.inr rfl)) (by decide)
    (by decide) (Or.inl rfl) (by decide)).1

/-! ## Claim C5: the classification decoder -/

/-- C5: the classification decoder is asymmetric — a stripped input whose
length is not exactly 1 yields the absent value `None` (not an error); a
stripped, upper-cased input of length 1 outside `{U, C, S}` raises a
`ValueError`; an input normalizing to `U`, `C` or `S` is returned
upper-cased. -/
theorem claim_C5 (value : List Char) :
    ((strip value).length ≠ 1 →
      parse_classification_field value = ClassResult.absent) ∧
    (∀ c : Char, (strip value).map toUpperPy = [c] →
      ¬(c = 'U' ∨ c = 'C' ∨ c = 'S') →
      parse_classification_field value = ClassResult.error) ∧
    (∀ c : Char, (strip value).map toUpperPy = [c] →
      (c = 'U' ∨ c = 'C' ∨ c = 'S') →
      parse_classification_field value = ClassResult.ok [c]) := by
  refine ⟨?_, ?_, ?_⟩
  · intro h
    have hlen : ((strip value).map toUpperPy).length ≠ 1 := by
      rw [List.length_map]
      exact h
    simp only [parse_classification_field]
    rw [if_pos hlen]
  · intro c hc hne
    simp only [parse_classification_field, hc]
    have hne1 : ¬(([c] : List Char) = ['U'] ∨ ([c] : List Char) = ['C'] ∨
        ([c] : List Char) = ['S']) := by
      simp only [List.cons.injEq, and_true]
      exact hne
    simp only [if_neg (by simp : ¬(([c] : List Char).length ≠ 1)),
      if_neg hne1]
  · intro c hc hmem
    simp only [parse_classification_field, hc]
    have hm : (([c] : List Char) = ['U'] ∨ ([c] : List Char) = ['C'] ∨
        ([c] : List Char) = ['S']) := by
      simp only [List.cons.injEq, and_true]
      exact hmem
    simp only [if_neg (by simp : ¬(([c] : List Char).length ≠ 1)), hm, if_true]

/-- Witness: `claim_C5` applied at the wrong-length input `"XX"`, the
plausible-but-invalid classification `" x "`, and the valid `" u "`. -/
theorem claim_C5_witness :
    (strip (str "XX")).length ≠ 1 ∧
    parse_classification_field (str "XX") = ClassResult.absent ∧
    (strip (str " x ")).map toUpperPy = ['X'] ∧
    parse_classification_field (str " x ") = ClassResult.error ∧
    (strip (str " u ")).map toUpperPy = ['U'] ∧
    parse_classification_field (str " u ") = ClassResult.ok ['U'] :=
  ⟨by decide, (claim_C5 (str "XX")).1 (by decide),
   by decide, (claim_C5 (str " x ")).2.1 'X' (by decide) (by decide),
   by decide, (claim_C5 (str " u ")).2.2 'U' (by decide) (by decide)⟩

/-! ## Supporting lemmas: `parseDecimal` on grammar-shaped tokens -/

lemma parseDecimal_dot (ip fp : List Char)
    (hip : ip.all isDigitA = true) (hfp : fp.all isDigitA = true)
    (hne : ip ≠ []) :
    parseDecimal (ip ++ '.' :: fp) =
      some ((natOfDigits ip : ℚ) +
        (natOfDigits fp : ℚ) / (10 : ℚ) ^ fp.length) := by
  obtain ⟨c, ip', rfl⟩ : ∃ c ip', ip = c :: ip' := by
    cases ip with
    | nil => exact absurd rfl hne
    | cons c ip' => exact ⟨c, ip', rfl⟩
  have hc : isDigitA c = true := by
    simp only [List.all_cons, Bool.and_eq_true] at hip
    exact hip.1
  have ho : optSign ((c :: ip') ++ '.' :: fp) = ([], (c :: ip') ++ '.' :: fp) := by
    rw [List.cons_append]
    exact optSign_not_sign _ (digit_not_sign hc)
  have hts : takeStar isDigitA ((c :: ip') ++ '.' :: fp) =
      (c :: ip', '.' :: fp) := by
    refine takeStar_append isDigitA (c :: ip') ('.' :: fp) hip ?_
    intro c' cs' h
    cases h
    decide
  have hts2 : takeStar isDigitA fp = (fp, []) := takeStar_all isDigitA fp hfp
  simp only [parseDecimal, ho, hts, hts2]
  simp [decSign]

lemma parseDecimal_dotOnly (fp : List Char)
    (hfp : fp.all isDigitA = true) (hne : fp ≠ []) :
    parseDecimal ('.' :: fp) =
      some ((natOfDigits fp : ℚ) / (10 : ℚ) ^ fp.length) := by
  have ho : optSign ('.' :: fp) = ([], '.' :: fp) :=
    optSign_not_sign _ (by decide)
  have hts : takeStar isDigitA ('.' :: fp) = ([], '.' :: fp) :=
    takeStar_stop isDigitA fp (by decide)
  have hts2 : takeStar isDigitA fp = (fp, []) := takeStar_all isDigitA fp hfp
  simp only [parseDecimal, ho, hts, hts2]
  simp [decSign, hne, natOfDigits]

/-! ## Claim C7: the eccentricity decoder -/

lemma parse_eccentricity_digits (ds : List Char)
    (hall : ds.all isDigitA = true) :
    parse_eccentricity_field ds =
      some ((natOfDigits ds : ℚ) / (10 : ℚ) ^ ds.length) := by
  have hstrip : strip ds = ds := by
    refine strip_eq_self ?_
    intro c hc
    exact not_space_of_digit (List.all_eq_true.mp hall c hc)
  have hd : parseDecimal (['0'] ++ '.' :: ds) =
      some ((natOfDigits ['0'] : ℚ) +
        (natOfDigits ds : ℚ) / (10 : ℚ) ^ ds.length) :=
    parseDecimal_dot ['0'] ds (by decide) hall (by decide)
  unfold parse_eccentricity_field
  rw [hstrip]
  rw [show ('0' :: '.' :: ds) = ['0'] ++ '.' :: ds from rfl, hd]
  norm_num [natOfDigits, digitVal]

/-- C7: on every 7-digit string the eccentricity decoder returns the value of
`"0."` followed by those digits — the integer value of the digits divided by
`10 ^ 7` — and that value lies in `[0, 1)`. -/
theorem claim_C7 (ds : List Char) (h7 : ds.length = 7)
    (hall : ds.all isDigitA = true) :
    parse_eccentricity_field ds = some ((natOfDigits ds : ℚ) / 10 ^ 7) ∧
    0 ≤ (natOfDigits ds : ℚ) / 10 ^ 7 ∧
    (natOfDigits ds : ℚ) / 10 ^ 7 < 1 := by
  have hlt : (natOfDigits ds : ℚ) < 10 ^ 7 := by
    have := natOfDigits_lt hall
    rw [h7] at this
    exact_mod_cast this
  refine ⟨?_, ?_, ?_⟩
  · rw [parse_eccentricity_digits ds hall, h7]
  · positivity
  · rw [div_lt_one (by positivity)]
    exact hlt

/-- Witness: `claim_C7` applied to the ISS eccentricity field `"0004607"`. -/
theorem claim_C7_witness :
    parse_eccentricity_field (str "0004607") =
      some ((natOfDigits (str "0004607") : ℚ) / 10 ^ 7) ∧
    0 ≤ (natOfDigits (str "0004607") : ℚ) / 10 ^ 7 ∧
    (natOfDigits (str "0004607") : ℚ) / 10 ^ 7 < 1 :=
  claim_C7 (str "0004607") (by decide) (by decide)

/-! ## Claim C6: the epoch decoder -/

/-- The resolved epoch year of `parse_epoch_field`, named for statement
readability. -/
def resolvedEpochYear (yy : ℕ) : ℕ :=
  if yy < 57 then 2000 + yy else 1900 + yy

lemma parse_epoch_field_digits (a b : Char) (r : List Char) (dv : ℚ)
    (ha : isDigitA a = true) (hb : isDigitA b = true)
    (hr : parseDecimal r = some dv) :
    parse_epoch_field (a :: b :: r) =
      some (resolvedEpochYear (natOfDigits [a, b]), dv,
        ((unixTimestampJan1 (resolvedEpochYear (natOfDigits [a, b])) : ℚ) +
          (dv - 1) * 86400) / 86400 + 2440587.5) := by
  have htake : (a :: b :: r).take 2 = [a, b] := rfl
  have hdrop : (a :: b :: r).drop 2 = r := rfl
  have hint : intBase10 [a, b] = some (natOfDigits [a, b]) := by
    simp [intBase10, ha, hb]
  simp only [parse_epoch_field, htake, hdrop, hint, hr, resolvedEpochYear]

/-- C6: the epoch decoder resolves a two-digit year below 57 to `2000 + yy`
and at or above 57 to `1900 + yy` — so `"56..."` resolves to 2056 and
`"57..."` to 1957, the boundary exactly at 57 — and computes the Julian date
as `unix_seconds / 86400 + 2440587.5` where the Unix instant is January 1 of
the resolved year plus `day − 1` days. -/
theorem claim_C6 (y1 y0 : Char) (rest : List Char) (d : ℚ)
    (h1 : isDigitA y1 = true) (h0 : isDigitA y0 = true)
    (hday : parseDecimal rest = some d) :
    parse_epoch_field (y1 :: y0 :: rest) =
      some (resolvedEpochYear (natOfDigits [y1, y0]), d,
        ((unixTimestampJan1 (resolvedEpochYear (natOfDigits [y1, y0])) : ℚ) +
          (d - 1) * 86400) / 86400 + 2440587.5) ∧
    parse_epoch_field (str "56001.00000000") = some (2056, 1, 4943997 / 2) ∧
    parse_epoch_field (str "57001.00000000") = some (1957, 1, 4871679 / 2) := by
  have hgen := parse_epoch_field_digits
  refine ⟨hgen y1 y0 rest d h1 h0 hday, ?_, ?_⟩
  · have hd : parseDecimal (str "001.00000000") = some 1 := by
      rw [show (str "001.00000000") = str "001" ++ '.' :: str "00000000"
        from rfl]
      rw [parseDecimal_dot (str "001") (str "00000000") (by decide)
        (by decide) (by decide)]
      have hn1 : natOfDigits (str "001") = 1 := by decide
      have hn0 : natOfDigits (str "00000000") = 0 := by decide
      rw [hn1, hn0]
      norm_num
    have := hgen '5' '6' (str "001.00000000") 1 (by decide) (by decide) hd
    rw [show ('5' :: '6' :: str "001.00000000") = str "56001.00000000" from
      rfl] at this
    rw [this]
    have hy : resolvedEpochYear (natOfDigits ['5', '6']) = 2056 := by decide
    rw [hy]
    have hu : unixTimestampJan1 2056 = 2713910400 := by decide
    rw [hu]
    norm_num
  · have hd : parseDecimal (str "001.00000000") = some 1 := by
      rw [show (str "001.00000000") = str "001" ++ '.' :: str "00000000"
        from rfl]
      rw [parseDecimal_dot (str "001") (str "00000000") (by decide)
        (by decide) (by decide)]
      have hn1 : natOfDigits (str "001") = 1 := by decide
      have hn0 : natOfDigits (str "00000000") = 0 := by decide
      rw [hn1, hn0]
      norm_num
    have := hgen '5' '7' (str "001.00000000") 1 (by decide) (by decide) hd
    rw [show ('5' :: '7' :: str "001.00000000") = str "57001.00000000" from
      rfl] at this
    rw [this]
    have hy : resolvedEpochYear (natOfDigits ['5', '7']) = 1957 := by decide
    rw [hy]
    have hu : unixTimestampJan1 1957 = -410227200 := by decide
    rw [hu]
    norm_num

/-- Witness: `claim_C6` applied to the ISS epoch field `"20062.59097222"`. -/
theorem claim_C6_witness :
    parse_epoch_field (str "20062.59097222") =
      some (resolvedEpochYear (natOfDigits ['2', '0']), 3129548611 / 50000000,
        ((unixTimestampJan1 (resolvedEpochYear (natOfDigits ['2', '0'])) : ℚ) +
          (3129548611 / 50000000 - 1) * 86400) / 86400 + 2440587.5) ∧
    parse_epoch_field (str "56001.00000000") = some (2056, 1, 4943997 / 2) ∧
    parse_epoch_field (str "57001.00000000") = some (1957, 1, 4871679 / 2) := by
  have hd : parseDecimal (str "062.59097222") = some (3129548611 / 50000000) := by
    rw [show (str "062.59097222") = str "062" ++ '.' :: str "59097222"
      from rfl]
    rw [parseDecimal_dot (str "062") (str "59097222") (by decide)
      (by decide) (by decide)]
    have hn1 : natOfDigits (str "062") = 62 := by decide
    have hn0 : natOfDigits (str "59097222") = 59097222 := by decide
    have hl : (str "59097222").length = 8 := by decide
    rw [hn1, hn0, hl]
    norm_num
  have h := claim_C6 '2' '0' (str "062.59097222") (3129548611 / 50000000)
    (by decide) (by decide) hd
  exact h

/-! ## Claim C9: the CPF H1 grammar on a real-world record -/

/-- C9: matching `"H1 CPF 2 OPA 2025 06 04 18 155 1 apollo15 OPA_ELP96"`
against the H1 grammar succeeds and extracts version `"2"`, ephemeris source
`"OPA"`, year `"2025"`, target name `"apollo15"` and notes `"OPA_ELP96"`
(month `"06"`, day `"04"`, hour `"18"`, sequence numbers `"155"` and `"1"`). -/
theorem claim_C9 :
    h1_match (str "H1 CPF 2 OPA 2025 06 04 18 155 1 apollo15 OPA_ELP96") =
      some ⟨str "2", str "OPA", str "2025", str "06", str "04", str "18",
        str "155", str "1", str "apollo15", some (str "OPA_ELP96")⟩ := by
  decide

/-! ## Claim C10: grammar-accepted ids the id decoder rejects -/

/-- A TLE whose satellite id `"1234A"` starts with a digit but contains a
letter: both line grammars accept it, the id decoder does not. -/
def C10line1 : List Char :=
  str "1 1234AU 98067A   20062.59097222  .00016717  00000-0  10270-3 0  9006"

def C10line2 : List Char :=
  str "2 1234A  51.6442 147.1064 0004607  95.6506 329.8285 15.49249062  2423"

def C10tle : List Char := C10line1 ++ '\n' :: C10line2

/-- C10: for every 5-character id over `[0-9A-Z]` that begins with a digit
but contains a letter, the id sub-grammar of line 1 accepts the id in full,
yet `parse_id_field` interprets it in base 10 (base 36 applies only when the
FIRST character is alphabetic), fails, and returns `None`; consequently such
TLE records — accepted by both line grammars — are rejected wholesale, as the
concrete record with id `"1234A"` shows. -/
theorem claim_C10 (id : List Char) (c : Char) (cs : List Char)
    (hid : id = c :: cs) (h5 : id.length = 5)
    (hall : id.all isUpperAlnum = true) (hc : isDigitA c = true)
    (halpha : ∃ a ∈ id, isAlphaA a = true) :
    parse_id_field id = none ∧
    (∀ rest : List Char, takeCount isUpperAlnum 5 (id ++ rest) =
      some (id, rest)) ∧
    line1_match C10line1 ≠ none ∧
    line2_match C10line2 ≠ none ∧
    parse_tle C10tle = Except.ok none := by
  refine ⟨?_, ?_, by decide, by decide, by decide⟩
  · obtain ⟨a, ha, halp⟩ := halpha
    have hnotall : id.all isDigitA = false := by
      rcases Bool.eq_false_or_eq_true (id.all isDigitA) with h | h
      · have := List.all_eq_true.mp h a ha
        rw [not_digit_of_alpha halp] at this
        cases this
      · exact h
    have hbase : intBase10 id = none := by
      unfold intBase10
      rw [if_neg]
      intro hcon
      rw [hnotall] at hcon
      cases hcon.2
    subst hid
    simp only [parse_id_field, not_alpha_of_digit hc, Bool.false_eq_true,
      if_false]
    exact hbase
  · intro rest
    rw [← h5]
    exact takeCount_exact isUpperAlnum id rest hall

/-- Witness: `claim_C10` applied to the concrete id `"1234A"`. -/
theorem claim_C10_witness :
    parse_id_field (str "1234A") = none ∧
    takeCount isUpperAlnum 5 (str "1234A" ++ str " rest") =
      some (str "1234A", str " rest") ∧
    parse_tle C10tle = Except.ok none :=
  have h := claim_C10 (str "1234A") '1' (str "234A") rfl (by decide)
    (by decide) (by decide) ⟨'A', by decide, by decide⟩
  ⟨h.1, h.2.1 (str " rest"), h.2.2.2.2⟩

/-! ## Claim C4: no cross-line id check in `parse_tle` -/

/-- `true` exactly when `parse_tle` produced a satellite (neither the absent
result nor a raised error). -/
def returnsSatellite : Except Unit (Option Satellite) → Bool
  | Except.ok (some _) => true
  | _ => false

/-- The id of the produced satellite, when one was produced. -/
def satelliteIdOf : Except Unit (Option Satellite) → Option ℕ
  | Except.ok (some s) => some (Satellite.id s)
  | _ => none

def C4line1 : List Char :=
  str "1 25544U 98067A   20062.59097222  .00016717  00000-0  10270-3 0  9006"

/-- Line 2 with the id `25544` matching line 1. -/
def C4line2good : List Char :=
  str "2 25544  51.6442 147.1064 0004607  95.6506 329.8285 15.49249062  2423"

/-- Line 2 with the id `25545`, deliberately different from line 1's. -/
def C4line2mis : List Char :=
  str "2 25545  51.6442 147.1064 0004607  95.6506 329.8285 15.49249062  2423"

def C4tleMis : List Char := C4line1 ++ '\n' :: C4line2mis

def C4tleGood : List Char := C4line1 ++ '\n' :: C4line2good

def C4g1 : Line1Raw :=
  ⟨str "25544", str "U", str "98067A", str "20", str "062.59097222",
   str ".00016717", str "00000-0", str "10270-3", str "0", str "9006"⟩

def C4g2good : Line2Raw :=
  ⟨str "25544", str "51.6442", str "147.1064", str "0004607", str "95.6506",
   str "329.8285", str "15.49249062", str "2423"⟩

def C4g2mis : Line2Raw :=
  ⟨str "25545", str "51.6442", str "147.1064", str "0004607", str "95.6506",
   str "329.8285", str "15.49249062", str "2423"⟩

/-- The satellite assembled from the record above. -/
def C4sat : Satellite :=
  ⟨25544, [], str "U", str "98067A", 2020, 3129548611 / 50000000,
   122945554548611 / 50000000, 0, 9006, 1027 / 10000000, 1471064 / 10000,
   516442 / 10000, 4607 / 10000000, 956506 / 10000, 3298285 / 10000,
   1549249062 / 100000000, 16717 / 100000000, 0, 2423⟩

/-- `decodeOrbit` never reads line 2's id group: two group records agreeing
on every other field decode identically. -/
lemma decodeOrbit_ignores_line2_id (i : ℕ) (name cls : List Char)
    (g1 : Line1Raw) (g2 g2' : Line2Raw)
    (e1 : g2.inclination = g2'.inclination) (e2 : g2.raan = g2'.raan)
    (e3 : g2.eccentricity = g2'.eccentricity)
    (e4 : g2.argument_of_perigee = g2'.argument_of_perigee)
    (e5 : g2.mean_anomaly = g2'.mean_anomaly)
    (e6 : g2.mean_motion = g2'.mean_motion)
    (e7 : g2.number_of_revolutions = g2'.number_of_revolutions) :
    decodeOrbit i name cls g1 g2 = decodeOrbit i name cls g1 g2' := by
  cases g2
  cases g2'
  simp only at e1 e2 e3 e4 e5 e6 e7
  subst e1
  subst e2
  subst e3
  subst e4
  subst e5
  subst e6
  subst e7
  rfl

lemma C4_reduce_mis : parse_tle C4tleMis =
    Except.ok (decodeOrbit 25544 [] (str "U") C4g1 C4g2mis) := by
  have hsplit : ((splitLines C4tleMis).map strip).filter (fun l => l ≠ []) =
      [C4line1, C4line2mis] := by decide
  have h1 : line1_match C4line1 = some C4g1 := by decide
  have h2 : line2_match C4line2mis = some C4g2mis := by decide
  have hid : parse_id_field (C4g1.id) = some 25544 := by decide
  have hcls : parse_classification_field (C4g1.classification) =
      ClassResult.ok (str "U") := by decide
  unfold parse_tle
  rw [hsplit]
  simp only [parse_tle_lines, h1, h2, hid, hcls]

lemma C4_reduce_good : parse_tle C4tleGood =
    Except.ok (decodeOrbit 25544 [] (str "U") C4g1 C4g2good) := by
  have hsplit : ((splitLines C4tleGood).map strip).filter (fun l => l ≠ []) =
      [C4line1, C4line2good] := by decide
  have h1 : line1_match C4line1 = some C4g1 := by decide
  have h2 : line2_match C4line2good = some C4g2good := by decide
  have hid : parse_id_field (C4g1.id) = some 25544 := by decide
  have hcls : parse_classification_field (C4g1.classification) =
      ClassResult.ok (str "U") := by decide
  unfold parse_tle
  rw [hsplit]
  simp only [parse_tle_lines, h1, h2, hid, hcls]

lemma C4_decode_eval :
    decodeOrbit 25544 [] (str "U") C4g1 C4g2good = some C4sat := by
  have hday : parseDecimal (str "062.59097222") =
      some ((62 : ℚ) + 59097222 / 10 ^ 8) := by
    rw [show (str "062.59097222") = str "062" ++ '.' :: str "59097222"
      from rfl]
    rw [parseDecimal_dot (str "062") (str "59097222") (by decide) (by decide)
      (by decide)]
    have e1 : natOfDigits (str "062") = 62 := by decide
    have e2 : natOfDigits (str "59097222") = 59097222 := by decide
    have e3 : (str "59097222").length = 8 := by decide
    rw [e1, e2, e3]
    norm_num
  have hepoch : parse_epoch_field (C4g1.year ++ C4g1.day) =
      some (2020, (62 : ℚ) + 59097222 / 10 ^ 8,
        ((1577836800 : ℚ) + ((62 : ℚ) + 59097222 / 10 ^ 8 - 1) * 86400)
          / 86400 + 2440587.5) := by
    rw [show (C4g1.year ++ C4g1.day) = '2' :: '0' :: str "062.59097222"
      from rfl]
    rw [parse_epoch_field_digits '2' '0' _ _ (by decide) (by decide) hday]
    have hy : resolvedEpochYear (natOfDigits ['2', '0']) = 2020 := by decide
    rw [hy]
    have hu : unixTimestampJan1 2020 = 1577836800 := by decide
    rw [hu]
    norm_num
  have hfdmm : parseDecimal C4g1.first_derivative_of_mean_motion =
      some ((16717 : ℚ) / 10 ^ 8) := by
    rw [show C4g1.first_derivative_of_mean_motion =
      '.' :: str "00016717" from rfl]
    rw [parseDecimal_dotOnly (str "00016717") (by decide) (by decide)]
    have e1 : natOfDigits (str "00016717") = 16717 := by decide
    have e2 : (str "00016717").length = 8 := by decide
    rw [e1, e2]
    norm_num
  have hsd : parse_scientific C4g1.second_derivative_of_mean_motion
      = 0 := by
    have hb : sciMatch (str "00000-0") = some ([], str "00000", '-', '0') :=
      by decide
    have e1 : natOfDigits (str "00000") = 0 := by decide
    show parse_scientific (str "00000-0") = 0
    simp +decide only [parse_scientific, hb, e1]
    norm_num
  have hdrag : parse_scientific C4g1.drag = (1027 : ℚ) / 10 ^ 7 := by
    have hb : sciMatch (str "10270-3") = some ([], str "10270", '-', '3') :=
      by decide
    have e1 : natOfDigits (str "10270") = 10270 := by decide
    have e2 : signedExp '-' '3' = -3 := by decide
    show parse_scientific (str "10270-3") = (1027 : ℚ) / 10 ^ 7
    simp +decide only [parse_scientific, hb, e1, e2]
    norm_num
  have heph : parse_int_field C4g1.ephemeris = some 0 := by decide
  have hset : parse_int_field C4g1.set = some 9006 := by decide
  have hincl : parseDecimal C4g2good.inclination =
      some ((51 : ℚ) + 6442 / 10 ^ 4) := by
    rw [show C4g2good.inclination = str "51" ++ '.' :: str "6442" from rfl]
    rw [parseDecimal_dot (str "51") (str "6442") (by decide) (by decide)
      (by decide)]
    have e1 : natOfDigits (str "51") = 51 := by decide
    have e2 : natOfDigits (str "6442") = 6442 := by decide
    have e3 : (str "6442").length = 4 := by decide
    rw [e1, e2, e3]
    norm_num
  have hraan : parseDecimal C4g2good.raan =
      some ((147 : ℚ) + 1064 / 10 ^ 4) := by
    rw [show C4g2good.raan = str "147" ++ '.' :: str "1064" from rfl]
    rw [parseDecimal_dot (str "147") (str "1064") (by decide) (by decide)
      (by decide)]
    have e1 : natOfDigits (str "147") = 147 := by decide
    have e2 : natOfDigits (str "1064") = 1064 := by decide
    have e3 : (str "1064").length = 4 := by decide
    rw [e1, e2, e3]
    norm_num
  have hecc : parse_eccentricity_field C4g2good.eccentricity =
      some ((4607 : ℚ) / 10 ^ 7) := by
    rw [show C4g2good.eccentricity = str "0004607" from rfl]
    rw [parse_eccentricity_digits (str "0004607") (by decide)]
    have e1 : natOfDigits (str "0004607") = 4607 := by decide
    have e2 : (str "0004607").length = 7 := by decide
    rw [e1, e2]
    norm_num
  have hargp : parseDecimal C4g2good.argument_of_perigee =
      some ((95 : ℚ) + 6506 / 10 ^ 4) := by
    rw [show C4g2good.argument_of_perigee = str "95" ++ '.' :: str "6506"
      from rfl]
    rw [parseDecimal_dot (str "95") (str "6506") (by decide) (by decide)
      (by decide)]
    have e1 : natOfDigits (str "95") = 95 := by decide
    have e2 : natOfDigits (str "6506") = 6506 := by decide
    have e3 : (str "6506").length = 4 := by decide
    rw [e1, e2, e3]
    norm_num
  have hma : parseDecimal C4g2good.mean_anomaly =
      some ((329 : ℚ) + 8285 / 10 ^ 4) := by
    rw [show C4g2good.mean_anomaly = str "329" ++ '.' :: str "8285" from rfl]
    rw [parseDecimal_dot (str "329") (str "8285") (by decide) (by decide)
      (by decide)]
    have e1 : natOfDigits (str "329") = 329 := by decide
    have e2 : natOfDigits (str "8285") = 8285 := by decide
    have e3 : (str "8285").length = 4 := by decide
    rw [e1, e2, e3]
    norm_num
  have hmm : parseDecimal C4g2good.mean_motion =
      some ((15 : ℚ) + 49249062 / 10 ^ 8) := by
    rw [show C4g2good.mean_motion = str "15" ++ '.' :: str "49249062"
      from rfl]
    rw [parseDecimal_dot (str "15") (str "49249062") (by decide) (by decide)
      (by decide)]
    have e1 : natOfDigits (str "15") = 15 := by decide
    have e2 : natOfDigits (str "49249062") = 49249062 := by decide
    have e3 : (str "49249062").length = 8 := by decide
    rw [e1, e2, e3]
    norm_num
  have hrev : parse_int_field C4g2good.number_of_revolutions = some 2423 :=
    by decide
  have hdes : strip C4g1.designator = str "98067A" := by decide
  simp only [decodeOrbit, parse_float_field, parse_packed_sci_field, hepoch,
    hfdmm, hsd, hdrag, heph, hset, hincl, hraan, hecc, hargp, hma, hmm, hrev,
    hdes, Option.some.injEq]
  rw [mkSatellite, if_pos]
  · simp only [C4sat, Satellite.mk.injEq]
    norm_num
  · refine ⟨by norm_num, by norm_num, by norm_num, by norm_num, Or.inl rfl⟩

/-- C4 counterexample to the claim as stated: a TLE whose two lines both
match their grammars but carry the different ids `25544` and `25545` is NOT
rejected — `parse_tle` returns a satellite. -/
theorem claim_C4_counterexample :
    line1_match C4line1 ≠ none ∧
    line2_match C4line2mis ≠ none ∧
    (line1_match C4line1).map Line1Raw.id = some (str "25544") ∧
    (line2_match C4line2mis).map Line2Raw.id = some (str "25545") ∧
    returnsSatellite (parse_tle C4tleMis) = true := by
  refine ⟨by decide, by decide, by decide, by decide, ?_⟩
  rw [C4_reduce_mis,
    decodeOrbit_ignores_line2_id 25544 [] (str "U") C4g1 C4g2mis C4g2good
      rfl rfl rfl rfl rfl rfl rfl,
    C4_decode_eval]
  rfl

/-- C4 (amended): `parse_tle` performs no cross-line id comparison — a
record whose two lines both match their grammars but carry different
satellite ids is accepted exactly as the id-consistent record is, and the
resulting satellite takes its id from line 1 (here `25544`, with line 2
saying `25545`). -/
theorem claim_C4 :
    parse_tle C4tleMis = parse_tle C4tleGood ∧
    parse_tle C4tleMis = Except.ok (some C4sat) ∧
    satelliteIdOf (parse_tle C4tleMis) = some 25544 := by
  have hmg : parse_tle C4tleMis = Except.ok (some C4sat) := by
    rw [C4_reduce_mis,
      decodeOrbit_ignores_line2_id 25544 [] (str "U") C4g1 C4g2mis C4g2good
        rfl rfl rfl rfl rfl rfl rfl,
      C4_decode_eval]
  have hgg : parse_tle C4tleGood = Except.ok (some C4sat) := by
    rw [C4_reduce_good, C4_decode_eval]
  refine ⟨hmg.trans hgg.symm, hmg, ?_⟩
  rw [hmg]
  rfl

/-! ## Supporting lemmas: the interpolation engine -/

lemma baryWeights_length (ps : List Position) :
    (baryWeights ps).length = ps.length := by
  simp [baryWeights]

lemma sortByAt_perm (ps : List Position) : List.Perm (sortByAt ps) ps :=
  List.perm_insertionSort _ ps

lemma sortByAt_length (ps : List Position) :
    (sortByAt ps).length = ps.length :=
  (sortByAt_perm ps).length_eq

lemma sortByAt_mem {p : Position} {ps : List Position} :
    p ∈ sortByAt ps ↔ p ∈ ps :=
  (sortByAt_perm ps).mem_iff

lemma sortByAt_pairwise_ne {ps : List Position}
    (h : ps.Pairwise (fun p q => p.att ≠ q.att)) :
    (sortByAt ps).Pairwise (fun p q => p.att ≠ q.att) :=
  ((sortByAt_perm ps).pairwise_iff (fun hxy => hxy.symm)).mpr h

lemma exists_zip_mem :
    ∀ (ps : List Position) (ws : List ℚ) (p : Position),
      p ∈ ps → ps.length ≤ ws.length → ∃ w, (p, w) ∈ ps.zip ws := by
  intro ps
  induction ps with
  | nil => intro ws p hp; cases hp
  | cons q rest ih =>
      intro ws p hp hl
      cases ws with
      | nil => simp at hl
      | cons w ws' =>
          rcases List.mem_cons.mp hp with rfl | hp'
          · exact ⟨w, List.mem_cons_self _ _⟩
          · obtain ⟨w', hw'⟩ := ih ws' p hp' (by simpa using Nat.le_of_succ_le_succ hl)
            exact ⟨w', List.mem_cons_of_mem _ hw'⟩

lemma pairwise_zip_fst {R : Position → Position → Prop} :
    ∀ (ps : List Position) (ws : List ℚ), ps.Pairwise R →
      (ps.zip ws).Pairwise (fun a b => R a.1 b.1) := by
  intro ps
  induction ps with
  | nil => intro ws _; simp
  | cons q rest ih =>
      intro ws h
      cases ws with
      | nil => simp
      | cons w ws' =>
          rcases List.pairwise_cons.mp h with ⟨hq, hrest⟩
          refine List.pairwise_cons.mpr ⟨?_, ih ws' hrest⟩
          intro b hb
          exact hq b.1 (List.of_mem_zip hb).1

lemma foldl_condMul_ne_zero (g : ℕ → ℚ) (i : ℕ) :
    ∀ (l : List ℕ) (acc : ℚ), acc ≠ 0 → (∀ j ∈ l, j ≠ i → g j ≠ 0) →
      l.foldl (fun a j => if j = i then a else a * g j) acc ≠ 0 := by
  intro l
  induction l with
  | nil => intro acc hacc _; simpa using hacc
  | cons j rest ih =>
      intro acc hacc hl
      simp only [List.foldl_cons]
      by_cases hj : j = i
      · rw [if_pos hj]
        exact ih acc hacc (fun k hk => hl k (List.mem_cons_of_mem _ hk))
      · rw [if_neg hj]
        exact ih _ (mul_ne_zero hacc (hl j (List.mem_cons_self _ _) hj))
          (fun k hk => hl k (List.mem_cons_of_mem _ hk))

lemma att_ne_of_index_ne {s : List Position}
    (hdist : s.Pairwise (fun p q => p.att ≠ q.att)) {i j : ℕ}
    (hi : i < s.length) (hj : j < s.length) (hne : i ≠ j) :
    (s.getD i default).att ≠ (s.getD j default).att := by
  rw [List.getD_eq_getElem _ _ hi, List.getD_eq_getElem _ _ hj]
  have hget := List.pairwise_iff_get.mp hdist
  rcases Nat.lt_or_ge i j with h | h
  · have := hget ⟨i, hi⟩ ⟨j, hj⟩ h
    simpa using this
  · have hji : j < i := lt_of_le_of_ne h (Ne.symm hne)
    have := (hget ⟨j, hj⟩ ⟨i, hi⟩ hji).symm
    simpa using this

lemma baryProduct_ne_zero {s : List Position}
    (hdist : s.Pairwise (fun p q => p.att ≠ q.att)) {i : ℕ}
    (hi : i < s.length) : baryProduct s i ≠ 0 := by
  unfold baryProduct
  refine foldl_condMul_ne_zero
    (fun j => (s.getD i default).att - (s.getD j default).att) i
    (List.range s.length) 1 one_ne_zero ?_
  intro j hj hne
  rw [sub_ne_zero]
  exact att_ne_of_index_ne hdist hi (List.mem_range.mp hj) (Ne.symm hne)

lemma mkLagrange_ok {ps : List Position} (h2 : 2 ≤ ps.length)
    (hdist : ps.Pairwise (fun p q => p.att ≠ q.att)) :
    mkLagrange ps = Except.ok (sortByAt ps, baryWeights (sortByAt ps)) := by
  unfold mkLagrange
  rw [if_neg (by omega : ¬ ps.length < 2), if_pos]
  refine List.all_eq_true.mpr ?_
  intro i hi
  refine decide_eq_true ?_
  exact baryProduct_ne_zero (sortByAt_pairwise_ne hdist) (List.mem_range.mp hi)

lemma lagrangeLoop_hit (p : Position) :
    ∀ (l : List (Position × ℚ)),
      (∃ w, (p, w) ∈ l) →
      l.Pairwise (fun a b => a.1.att ≠ b.1.att) →
      ∀ x y z den, lagrangeLoop p.att l x y z den =
        ⟨some p.x, some p.y, some p.z, p.att⟩ := by
  intro l
  induction l with
  | nil => rintro ⟨w, hw⟩; cases hw
  | cons qw rest ih =>
      rintro ⟨w, hw⟩ hpw x y z den
      obtain ⟨q, w', rfl⟩ : ∃ q w', qw = (q, w') := ⟨qw.1, qw.2, rfl⟩
      rcases List.pairwise_cons.mp hpw with ⟨hq, hrest⟩
      by_cases hqa : p.att = q.att
      · have hpq : p = q := by
          rcases List.mem_cons.mp hw with h | h
          · exact congrArg Prod.fst h
          · exact absurd hqa.symm (hq (p, w) h)
        simp only [lagrangeLoop, if_pos hqa]
        rw [hpq]
      · have hmem : (p, w) ∈ rest := by
          rcases List.mem_cons.mp hw with h | h
          · exact absurd (congrArg (fun r => Position.att r.1) h) hqa
          · exact h
        simp only [lagrangeLoop, if_neg hqa]
        exact ih ⟨w, hmem⟩ hrest _ _ _ _

/-! ## Claim C2: exact sample-time round-trip for the Lagrange variant -/

/-- C2: for every Barycentric Lagrange interpolator built from at least two
positions with pairwise-distinct times, querying at any sample's exact time
returns that sample's coordinates verbatim (the exact-match branch fires
before any division). -/
theorem claim_C2 (ps : List Position) (h2 : 2 ≤ ps.length)
    (hdist : ps.Pairwise (fun p q => p.att ≠ q.att)) (p : Position)
    (hp : p ∈ ps) :
    lagrange_get ps p.att =
      Except.ok ⟨some p.x, some p.y, some p.z, p.att⟩ := by
  unfold lagrange_get
  rw [mkLagrange_ok h2 hdist]
  have hps : p ∈ sortByAt ps := sortByAt_mem.mpr hp
  have hlen : (sortByAt ps).length ≤ (baryWeights (sortByAt ps)).length := by
    rw [baryWeights_length]
  obtain ⟨w, hw⟩ := exists_zip_mem (sortByAt ps) (baryWeights (sortByAt ps))
    p hps hlen
  have hpw := pairwise_zip_fst (sortByAt ps) (baryWeights (sortByAt ps))
    (sortByAt_pairwise_ne hdist)
  show Except.ok (lagrangeQuery (sortByAt ps, baryWeights (sortByAt ps))
    p.att) = _
  unfold lagrangeQuery
  rw [lagrangeLoop_hit p _ ⟨w, hw⟩ hpw]

/-- Witness: `claim_C2` on the two-sample interpolator of the source's test
suite, queried at the first sample's time. -/
theorem claim_C2_witness :
    lagrange_get [⟨0, 0, 0, 0⟩, ⟨10, 20, 30, 10⟩] (0 : ℚ) =
      Except.ok ⟨some 0, some 0, some 0, 0⟩ :=
  claim_C2 [⟨0, 0, 0, 0⟩, ⟨10, 20, 30, 10⟩] (by decide)
    (by norm_num [List.pairwise_cons])
    ⟨0, 0, 0, 0⟩ (List.mem_cons_self _ _)

/-! ## Claim C8: the Lagrange query is total and NaN-propagating -/

/-- The accumulated numerator `Σ wᵢ/(t − tᵢ) · f(pᵢ)` of the query loop. -/
def lagSum (t : ℚ) (f : Position → ℚ) : List (Position × ℚ) → ℚ
  | [] => 0
  | (p, w) :: rest => w / (t - p.att) * f p + lagSum t f rest

/-- The accumulated denominator `Σ wᵢ/(t − tᵢ)` of the query loop. -/
def lagDen (t : ℚ) : List (Position × ℚ) → ℚ
  | [] => 0
  | (p, w) :: rest => w / (t - p.att) + lagDen t rest

lemma lagrangeLoop_miss (t : ℚ) :
    ∀ (l : List (Position × ℚ)), (∀ pw ∈ l, t ≠ pw.1.att) →
      ∀ x y z den, lagrangeLoop t l x y z den =
        ⟨if den + lagDen t l ≠ 0
            then some ((x + lagSum t Position.x l) / (den + lagDen t l))
            else none,
         if den + lagDen t l ≠ 0
            then some ((y + lagSum t Position.y l) / (den + lagDen t l))
            else none,
         if den + lagDen t l ≠ 0
            then some ((z + lagSum t Position.z l) / (den + lagDen t l))
            else none, t⟩ := by
  intro l
  induction l with
  | nil =>
      intro _ x y z den
      simp [lagrangeLoop, lagSum, lagDen]
  | cons qw rest ih =>
      intro hne x y z den
      obtain ⟨q, w, rfl⟩ : ∃ q w, qw = (q, w) := ⟨qw.1, qw.2, rfl⟩
      have hq : t ≠ q.att := hne (q, w) (List.mem_cons_self _ _)
      have hrest : ∀ pw ∈ rest, t ≠ pw.1.att :=
        fun pw hpw => hne pw (List.mem_cons_of_mem _ hpw)
      simp only [lagrangeLoop, if_neg hq]
      rw [ih hrest]
      simp only [lagSum, lagDen, add_assoc]

/-- C8: on a constructed Lagrange interpolator (at least two samples,
pairwise-distinct times), a query at any time `t` equal to no sample time
never raises — it returns a `Position` with `att = t` for EVERY rational
`t`, inside or outside the sample span; when the accumulated denominator
`Σ wᵢ/(t − tᵢ)` is exactly zero every coordinate of the result is NaN
(`none`), and otherwise every coordinate is an actual number. -/
theorem claim_C8 (ps : List Position) (h2 : 2 ≤ ps.length)
    (hdist : ps.Pairwise (fun p q => p.att ≠ q.att)) (t : ℚ)
    (ht : ∀ p ∈ ps, t ≠ p.att) :
    ∃ st, mkLagrange ps = Except.ok st ∧
      lagrange_get ps t = Except.ok (lagrangeQuery st t) ∧
      (lagrangeQuery st t).att = t ∧
      (lagDen t (st.1.zip st.2) = 0 →
        (lagrangeQuery st t).x = none ∧ (lagrangeQuery st t).y = none ∧
          (lagrangeQuery st t).z = none) ∧
      (lagDen t (st.1.zip st.2) ≠ 0 →
        (lagrangeQuery st t).x ≠ none ∧ (lagrangeQuery st t).y ≠ none ∧
          (lagrangeQuery st t).z ≠ none) := by
  have hzip : ∀ pw ∈ (sortByAt ps).zip (baryWeights (sortByAt ps)),
      t ≠ pw.1.att := by
    intro pw hpw
    exact ht pw.1 (sortByAt_mem.mp (List.of_mem_zip hpw).1)
  have hquery : lagrangeQuery (sortByAt ps, baryWeights (sortByAt ps)) t =
      ⟨if lagDen t ((sortByAt ps).zip (baryWeights (sortByAt ps))) ≠ 0
          then some (lagSum t Position.x
              ((sortByAt ps).zip (baryWeights (sortByAt ps))) /
            lagDen t ((sortByAt ps).zip (baryWeights (sortByAt ps))))
          else none,
       if lagDen t ((sortByAt ps).zip (baryWeights (sortByAt ps))) ≠ 0
          then some (lagSum t Position.y
              ((sortByAt ps).zip (baryWeights (sortByAt ps))) /
            lagDen t ((sortByAt ps).zip (baryWeights (sortByAt ps))))
          else none,
       if lagDen t ((sortByAt ps).zip (baryWeights (sortByAt ps))) ≠ 0
          then some (lagSum t Position.z
              ((sortByAt ps).zip (baryWeights (sortByAt ps))) /
            lagDen t ((sortByAt ps).zip (baryWeights (sortByAt ps))))
          else none, t⟩ := by
    unfold lagrangeQuery
    rw [lagrangeLoop_miss t _ hzip]
    simp only [zero_add]
  refine ⟨(sortByAt ps, baryWeights (sortByAt ps)), mkLagrange_ok h2 hdist,
    ?_, ?_, ?_, ?_⟩
  · unfold lagrange_get
    rw [mkLagrange_ok h2 hdist]
    rfl
  · rw [hquery]
  · intro h0
    dsimp only at h0 ⊢
    rw [hquery]
    rw [h0]
    simp
  · intro hne
    dsimp only at hne ⊢
    rw [hquery]
    simp [hne]

/-- Witness: `claim_C8` on the two-sample interpolator of the source's test
suite, queried at the midpoint `t = 5`. -/
theorem claim_C8_witness :
    ∃ st,
      mkLagrange [(⟨0, 0, 0, 0⟩ : Position), ⟨10, 20, 30, 10⟩] =
        Except.ok st ∧
      lagrange_get [(⟨0, 0, 0, 0⟩ : Position), ⟨10, 20, 30, 10⟩] 5 =
        Except.ok (lagrangeQuery st 5) ∧
      (lagrangeQuery st 5).att = 5 ∧
      (lagDen 5 (st.1.zip st.2) = 0 →
        (lagrangeQuery st 5).x = none ∧ (lagrangeQuery st 5).y = none ∧
          (lagrangeQuery st 5).z = none) ∧
      (lagDen 5 (st.1.zip st.2) ≠ 0 →
        (lagrangeQuery st 5).x ≠ none ∧ (lagrangeQuery st 5).y ≠ none ∧
          (lagrangeQuery st 5).z ≠ none) :=
  claim_C8 [⟨0, 0, 0, 0⟩, ⟨10, 20, 30, 10⟩] (by decide)
    (by norm_num [List.pairwise_cons]) 5
    (by
      intro p hp
      rcases List.mem_cons.mp hp with rfl | hp'
      · norm_num
      · rcases List.mem_cons.mp hp' with rfl | hp''
        · norm_num
        · cases hp'')

/-! ## Claim C1: the Hermite variant rejects out-of-domain queries -/

/-- C1: for every Hermite interpolator constructed from at least two samples,
every query at a time strictly outside `[min sample time, max sample time]`
(that is, strictly below every sample time or strictly above every sample
time) raises a hard `ValueError` at query time — whereas on the Lagrange
variant any successfully constructed instance answers every query time with
a `Position` (never an error). -/
theorem claim_C1 (ps : List Position) (h2 : 2 ≤ ps.length) (t : ℚ)
    (hout : (∀ p ∈ ps, t < p.att) ∨ (∀ p ∈ ps, p.att < t)) :
    hermite_get ps t = Except.error () ∧
    ∀ (qs : List Position) (st : List Position × List ℚ) (u : ℚ),
      mkLagrange qs = Except.ok st →
      lagrange_get qs u = Except.ok (lagrangeQuery st u) := by
  constructor
  · unfold hermite_get mkHermite
    rw [if_neg (by omega : ¬ ps.length < 2)]
    show hermiteQuery (sortByAt ps) t = Except.error ()
    have hlen : 0 < (sortByAt ps).length := by
      rw [sortByAt_length]
      omega
    obtain ⟨p0, rest, hs⟩ : ∃ p0 rest, sortByAt ps = p0 :: rest := by
      cases hsort : sortByAt ps with
      | nil => rw [hsort] at hlen; cases hlen
      | cons p0 rest => exact ⟨p0, rest, rfl⟩
    rw [hs]
    have hcond : t < p0.att ∨
        ((p0 :: rest).getLast (by simp)).att < t := by
      rcases hout with hlt | hgt
      · refine Or.inl (hlt p0 (sortByAt_mem.mp ?_))
        rw [hs]
        exact List.mem_cons_self _ _
      · refine Or.inr (hgt ((p0 :: rest).getLast (by simp))
          (sortByAt_mem.mp ?_))
        rw [hs]
        exact List.getLast_mem _
    simp only [hermiteQuery]
    rw [if_pos hcond]
  · intro qs st u hok
    unfold lagrange_get
    rw [hok]
    rfl

/-- Witness: `claim_C1` on the two-sample interpolator of the source's test
suite, queried before the first sample time. -/
theorem claim_C1_witness :
    hermite_get [(⟨0, 0, 0, 0⟩ : Position), ⟨10, 20, 30, 10⟩] (-1) =
      Except.error () ∧
    ∀ (qs : List Position) (st : List Position × List ℚ) (u : ℚ),
      mkLagrange qs = Except.ok st →
      lagrange_get qs u = Except.ok (lagrangeQuery st u) :=
  claim_C1 [⟨0, 0, 0, 0⟩, ⟨10, 20, 30, 10⟩] (by decide) (-1)
    (Or.inl (by
      intro p hp
      rcases List.mem_cons.mp hp with rfl | hp'
      · norm_num
      · rcases List.mem_cons.mp hp' with rfl | hp''
        · norm_num
        · cases hp''))

end Satelles
